import Mathlib

/-!
Verification of the genro-db micro database framework.

Shallow embedding of:
- `src/genro_db/adapters/postgres.py` (PostgreSQLAdapter)
- `src/genro_db/cli/config.py` (DbConfig)
- the Trigger Stack, Table/CRUD engine and Schema Synchronizer, whose
  modules are referenced from `src/genro_db/__init__.py` but whose code is
  not present in the source tree; those are modelled from the spec
  (sections 4.2-4.4 of spec.md).
-/

namespace GenroDb

/-- A Python-dict style ordered association list update: `d[k] = v`.
If the key is present, the value is replaced in place (insertion order
preserved); otherwise the pair is appended at the end. -/
def dictInsert {κ α : Type} [DecidableEq κ] (d : List (κ × α)) (k : κ)
    (v : α) : List (κ × α) :=
  if d.any (fun p => p.1 = k) then
    d.map (fun p => if p.1 = k then (k, v) else p)
  else
    d ++ [(k, v)]

/-- Python-dict key lookup `d.get(k)` on the ordered association list:
the value of the first (and, for a dict, only) pair with the key. -/
def dictGet {κ α : Type} [DecidableEq κ] : List (κ × α) → κ → Option α
  | [], _ => none
  | p :: ps, k => if p.1 = k then some p.2 else dictGet ps k

/-- Python-dict entry deletion `del d[k]`: every pair with the key is
removed (a dict holds at most one). -/
def dictDelete {κ α : Type} [DecidableEq κ] (d : List (κ × α)) (k : κ) :
    List (κ × α) :=
  d.filter (fun p => ! decide (p.1 = k))

/-- The nine dialect-independent logical column types of the Schema Model. -/
inductive LogicalType where
  | text
  | integer
  | float
  | boolean
  | binary
  | decimal
  | date
  | datetime
  | time
  deriving DecidableEq, Repr

/-- The Python types used as keys of the adapter `type_map` dict in
`src/genro_db/adapters/postgres.py`: `str`, `int`, `float`, `bool`,
`bytes`, `Decimal`, `date`, `datetime`, `time`. -/
inductive PyType where
  | pyStr
  | pyInt
  | pyFloat
  | pyBool
  | pyBytes
  | pyDecimal
  | pyDate
  | pyDatetime
  | pyTime
  deriving DecidableEq, Repr

/-- Correspondence between a logical type of the Schema Model and the
Python type that represents it as a `type_map` key. -/
def logicalKey : LogicalType → PyType
  | .text => .pyStr
  | .integer => .pyInt
  | .float => .pyFloat
  | .boolean => .pyBool
  | .binary => .pyBytes
  | .decimal => .pyDecimal
  | .date => .pyDate
  | .datetime => .pyDatetime
  | .time => .pyTime

namespace PostgreSQLAdapter

/-- The `type_map` property of `PostgreSQLAdapter`
(src/genro_db/adapters/postgres.py): the dict literal mapping Python
types to PostgreSQL type names, in source order. -/
def type_map : List (PyType × String) :=
  [ (.pyStr, "VARCHAR"),
    (.pyInt, "BIGINT"),
    (.pyFloat, "DOUBLE PRECISION"),
    (.pyBool, "BOOLEAN"),
    (.pyBytes, "BYTEA"),
    (.pyDecimal, "NUMERIC"),
    (.pyDate, "DATE"),
    (.pyDatetime, "TIMESTAMP"),
    (.pyTime, "TIME") ]

/-- One row of the `information_schema.columns` introspection query issued
by `get_current_schema`: column_name, data_type, is_nullable,
column_default. -/
structure IntrospectedRow where
  column_name : String
  data_type : String
  is_nullable : String
  column_default : Option String
  deriving DecidableEq, Repr

/-- The per-column entry built by `get_current_schema` for one fetched row:
`name`, dialect `type` string, `notnull` flag, `dflt_value`. -/
structure ColumnInfo where
  name : String
  type : String
  notnull : Nat
  dflt_value : Option String
  deriving DecidableEq, Repr

/-- The dict entry `get_current_schema` stores for one introspected row:
`notnull` is 1 when `is_nullable == 'NO'` and 0 otherwise. -/
def rowInfo (row : IntrospectedRow) : ColumnInfo :=
  { name := row.column_name
    type := row.data_type
    notnull := if row.is_nullable = "NO" then 1 else 0
    dflt_value := row.column_default }

/-- `PostgreSQLAdapter.get_current_schema`
(src/genro_db/adapters/postgres.py): folds the rows fetched from
`information_schema.columns` into a dict keyed by column name. -/
def get_current_schema (rows : List IntrospectedRow) :
    List (String × ColumnInfo) :=
  rows.foldl (fun s row => dictInsert s row.column_name (rowInfo row)) []

/-- `PostgreSQLAdapter.supports_drop_column`
(src/genro_db/adapters/postgres.py): PostgreSQL supports DROP COLUMN. -/
def supports_drop_column : Bool := true

/-- The statement text built for one column inside `_drop_columns`. -/
def sqlDropColumn (table_sql_name : String) (col_name : String) : String :=
  "ALTER TABLE " ++ table_sql_name ++ " DROP COLUMN " ++ col_name

/-- `PostgreSQLAdapter._drop_columns` (src/genro_db/adapters/postgres.py):
for each column in the set, executes `ALTER TABLE <table> DROP COLUMN
<column>` and appends the statement to the returned migration list. -/
def _drop_columns (table_sql_name : String) (columns : List String) :
    List String :=
  columns.map (fun col_name => sqlDropColumn table_sql_name col_name)

end PostgreSQLAdapter

/-- One value of the connection register of `DbConfig`
(src/genro_db/cli/config.py): the dict `{"connection_string": ...}`. -/
structure DbEntry where
  connection_string : String
  deriving DecidableEq, Repr

/-- The register dict stored in `register.json`, mapping database names to
their configuration. -/
abbrev Register := List (String × DbEntry)

namespace DbConfig

/-- `DbConfig.load_register` (src/genro_db/cli/config.py): the stored file
content, or the empty dict when the file does not exist (`none`). -/
def load_register (file : Option Register) : Register :=
  file.getD []

/-- `DbConfig.save_register` (src/genro_db/cli/config.py): writes the
register, so the stored file now exists with that content. -/
def save_register (register : Register) : Option Register :=
  some register

/-- `DbConfig.add` (src/genro_db/cli/config.py): loads the register, sets
`register[name] = {"connection_string": connection_string}` and saves. -/
def add (file : Option Register) (name connection_string : String) :
    Option Register :=
  save_register (dictInsert (load_register file) name ⟨connection_string⟩)

/-- `DbConfig.get` (src/genro_db/cli/config.py): `register.get(name)` on
the loaded register. -/
def get (file : Option Register) (name : String) : Option DbEntry :=
  dictGet (load_register file) name

/-- `DbConfig.remove` (src/genro_db/cli/config.py): loads the register;
if the name is absent returns `false` without saving, otherwise deletes
the entry, saves, and returns `true`. The second component is the stored
file after the call. -/
def remove (file : Option Register) (name : String) :
    Bool × Option Register :=
  if (load_register file).any (fun p => p.1 = name) then
    (true, save_register (dictDelete (load_register file) name))
  else
    (false, file)

end DbConfig

/-- Modelled from the spec: the key of one Trigger Stack entry, the
(table name, operation kind, record key) triple of spec.md section 4.4;
the trigger_stack module itself is not in the source tree. -/
structure TriggerKey where
  table : String
  operation : String
  record_key : Int
  deriving DecidableEq, Repr

/-- Modelled from the spec: the result `push` reports to its caller,
either success or "already active". -/
inductive PushResult where
  | success
  | alreadyActive
  deriving DecidableEq, Repr

/-- Modelled from the spec: the Trigger Stack as the set of currently
active (table, operation, key) triples. -/
abbrev TriggerStack := List TriggerKey

namespace TriggerStack

/-- Modelled from the spec: `push` transitions an inactive triple to
active and returns success; on an already-active triple it is a no-op
that returns "already active" (spec.md section 4.4). -/
def push (s : TriggerStack) (t : TriggerKey) : PushResult × TriggerStack :=
  if t ∈ s then (PushResult.alreadyActive, s)
  else (PushResult.success, t :: s)

/-- Modelled from the spec: `pop` always transitions the triple from
active to inactive, regardless of whether the enclosed operation
succeeded or raised (spec.md section 4.4). -/
def pop (s : TriggerStack) (t : TriggerKey) : TriggerStack :=
  s.filter (fun u => ! decide (u = t))

end TriggerStack

/-- Modelled from the spec: one Column descriptor of the Schema Model
(spec.md section 3): name, logical type, nullable flag, default and
primary-key flag; the schema module itself is not in the source tree. -/
structure ModelColumn where
  name : String
  logical_type : LogicalType
  nullable : Bool
  dflt : Option String
  primary_key : Bool
  deriving DecidableEq, Repr

/-- The notnull flag the live schema is expected to show for a declared
column: 1 when the column is not nullable. -/
def modelNotnull (c : ModelColumn) : Nat :=
  if c.nullable then 0 else 1

/-- The dialect type string for a logical type, via the adapter's
`type_map`. -/
def renderType (lt : LogicalType) : String :=
  ((PostgreSQLAdapter.type_map.find?
      (fun p => p.1 = logicalKey lt)).map (fun p => p.2)).getD ""

/-- The Live Schema Snapshot entry a declared column corresponds to when
the live schema agrees with the Schema Model. -/
def renderColumn (c : ModelColumn) : PostgreSQLAdapter.ColumnInfo :=
  { name := c.name
    type := renderType c.logical_type
    notnull := modelNotnull c
    dflt_value := c.dflt }

/-- Modelled from the spec: the live schema of a table matches the Schema
Model when every declared column is present live with the expected type,
notnull and default, and every live column is declared (no drift,
spec.md sections 4.2 and 8). -/
def liveMatches (model : List ModelColumn)
    (live : List (String × PostgreSQLAdapter.ColumnInfo)) : Bool :=
  model.all (fun c => dictGet live c.name = some (renderColumn c)) &&
  live.all (fun p => model.any (fun c => c.name = p.1))

/-- The ADD COLUMN statement the Synchronizer emits for one column. -/
def addColumnStmt (table_sql_name : String) (col_name : String) : String :=
  "ALTER TABLE " ++ table_sql_name ++ " ADD COLUMN " ++ col_name

/-- The CREATE statement the Synchronizer emits for a missing table. -/
def createTableStmt (table_sql_name : String) : String :=
  "CREATE TABLE " ++ table_sql_name

/-- Modelled from the spec: columns present in the model but absent live
(the to-add set of spec.md section 4.2, step 2). -/
def toAdd (model : List ModelColumn)
    (live : List (String × PostgreSQLAdapter.ColumnInfo)) : List String :=
  (model.map (fun c => c.name)).filter
    (fun n => ! (live.map Prod.fst).any (fun m => m = n))

/-- Modelled from the spec: columns present live but absent in the model
(the to-drop set of spec.md section 4.2, step 2). -/
def toDrop (model : List ModelColumn)
    (live : List (String × PostgreSQLAdapter.ColumnInfo)) : List String :=
  (live.map Prod.fst).filter
    (fun n => ! (model.map (fun c => c.name)).any (fun m => m = n))

/-- Modelled from the spec: a column present in both schemas needs an
alter when its notnull or default disagree (spec.md section 4.2,
step 2). -/
def alterNeeded (model : List ModelColumn)
    (live : List (String × PostgreSQLAdapter.ColumnInfo)) (n : String) :
    Bool :=
  match dictGet live n, model.find? (fun c => c.name = n) with
  | some lv, some mc =>
      ! (decide (lv.notnull = modelNotnull mc)
          && decide (lv.dflt_value = mc.dflt))
  | _, _ => false

/-- Modelled from the spec: columns present in both schemas whose
notnull/default disagree (the to-alter set of spec.md section 4.2). -/
def toAlter (model : List ModelColumn)
    (live : List (String × PostgreSQLAdapter.ColumnInfo)) : List String :=
  (model.map (fun c => c.name)).filter (alterNeeded model live)

/-- Modelled from the spec: the result of one Schema Synchronizer run for
one table: the three diff sets and the statements actually executed. -/
structure SyncResult where
  to_add : List String
  to_drop : List String
  to_alter : List String
  statements : List String
  deriving DecidableEq, Repr

/-- Modelled from the spec: one Schema Synchronizer run for one table
(spec.md section 4.2): emit CREATE when the table is missing; otherwise
diff the Schema Model against the Live Schema Snapshot, emit one ADD
COLUMN per to-add entry and the adapter's drop statements for the
to-drop set (to-alter drift is logged, not executed). -/
def syncTable (table_sql_name : String) (model : List ModelColumn)
    (table_exists : Bool)
    (live : List (String × PostgreSQLAdapter.ColumnInfo)) : SyncResult :=
  if table_exists then
    { to_add := toAdd model live
      to_drop := toDrop model live
      to_alter := toAlter model live
      statements :=
        (toAdd model live).map (addColumnStmt table_sql_name) ++
          (if (toDrop model live).isEmpty then []
           else PostgreSQLAdapter._drop_columns table_sql_name
             (toDrop model live)) }
  else
    { to_add := []
      to_drop := []
      to_alter := []
      statements := [createTableStmt table_sql_name] }

/-- Modelled from the spec: a column value in a Record (spec.md
section 3); the table module is not in the source tree. -/
inductive Value where
  | vNull
  | vInt (n : Int)
  | vStr (s : String)
  | vBool (b : Bool)
  deriving DecidableEq, Repr

/-- Modelled from the spec: a Record, an ordered mapping of column name to
value representing one row. -/
abbrev Record := List (String × Value)

/-- The error taxonomy of spec.md section 7 that the CRUD engine can
surface. -/
inductive DbError where
  | NotFound
  | ValidationFailed
  | CapabilityError
  deriving DecidableEq, Repr

/-- Modelled from the spec: the state of one Table of the CRUD engine: its
declared Schema Model, its single-column primary key name, the stored
rows keyed by primary key value, and the next auto-generated key. -/
structure TableState where
  schema : List ModelColumn
  pkey : String
  rows : List (Value × Record)
  next_key : Int
  deriving DecidableEq, Repr

namespace Table

/-- Modelled from the spec: a column the record is required to supply:
not nullable, no default, and not the (auto-generatable) primary key
(spec.md section 4.3, insert validation). -/
def requiredCol (c : ModelColumn) : Bool :=
  !c.nullable && c.dflt.isNone && !c.primary_key

/-- Modelled from the spec: insert validation, required columns must be
present in the record. -/
def validRecord (schema : List ModelColumn) (record : Record) : Bool :=
  schema.all (fun c => !(requiredCol c) || (dictGet record c.name).isSome)

/-- Modelled from the spec: the primary key used for an inserted record:
the supplied value when present, an auto-generated one otherwise. -/
def insertKey (st : TableState) (record : Record) : Value :=
  (dictGet record st.pkey).getD (Value.vInt st.next_key)

/-- Modelled from the spec: the row stored for an inserted record: each
declared column takes the record's value, null when absent, and the
primary key column takes the key. -/
def storedRow (st : TableState) (record : Record) : Record :=
  st.schema.map (fun c =>
    (c.name,
      if c.name = st.pkey then insertKey st record
      else (dictGet record c.name).getD Value.vNull))

/-- Modelled from the spec: `get(key)` fails with NotFound when no row has
that key (spec.md section 4.3). -/
def get (st : TableState) (key : Value) : Except DbError Record :=
  match dictGet st.rows key with
  | some r => Except.ok r
  | none => Except.error DbError.NotFound

/-- Modelled from the spec: `insert(record)` validates required columns,
stores the row and returns the generated or supplied key (spec.md
section 4.3). -/
def insert (st : TableState) (record : Record) :
    Except DbError (Value × TableState) :=
  if validRecord st.schema record then
    Except.ok (insertKey st record,
      { st with
        rows := st.rows ++ [(insertKey st record, storedRow st record)]
        next_key := st.next_key + 1 })
  else
    Except.error DbError.ValidationFailed

/-- Modelled from the spec: `delete` fails with NotFound when the key is
absent, otherwise removes the row (spec.md section 4.3). -/
def delete (st : TableState) (key : Value) : Except DbError TableState :=
  match dictGet st.rows key with
  | some _ => Except.ok { st with rows := dictDelete st.rows key }
  | none => Except.error DbError.NotFound

/-- Modelled from the spec: `list()` returns the sequence of stored
records (spec.md section 4.3). -/
def list (st : TableState) : List Record :=
  st.rows.map Prod.snd

end Table

/-- The book table of the test scenario (spec.md section 8): `id` integer
primary key, `title` text not null, `pages` integer nullable. -/
def bookSchema : List ModelColumn :=
  [ { name := "id", logical_type := .integer, nullable := false,
      dflt := none, primary_key := true },
    { name := "title", logical_type := .text, nullable := false,
      dflt := none, primary_key := false },
    { name := "pages", logical_type := .integer, nullable := true,
      dflt := none, primary_key := false } ]

/-- An empty book table, as after synchronizing on an empty database. -/
def bookTable : TableState :=
  { schema := bookSchema, pkey := "id", rows := [], next_key := 1 }

/-- The record of the test scenario: `{title: "Dune", pages: 412}`. -/
def duneRecord : Record :=
  [("title", Value.vStr "Dune"), ("pages", Value.vInt 412)]

/-- A book table holding the one row of the test scenario. -/
def bookTableOneRow : TableState :=
  { schema := bookSchema, pkey := "id",
    rows := [(Value.vInt 1,
      [("id", Value.vInt 1), ("title", Value.vStr "Dune"),
       ("pages", Value.vInt 412)])],
    next_key := 2 }

/-- A Live Schema Snapshot agreeing with `bookSchema` under the PostgreSQL
adapter's type map. -/
def bookLive : List (String × PostgreSQLAdapter.ColumnInfo) :=
  [ ("id", PostgreSQLAdapter.ColumnInfo.mk "id" "BIGINT" 1 none),
    ("title", PostgreSQLAdapter.ColumnInfo.mk "title" "VARCHAR" 1 none),
    ("pages", PostgreSQLAdapter.ColumnInfo.mk "pages" "BIGINT" 0 none) ]

/- ------------------------------------------------------------------ -/
/- Theorems.                                                           -/
/- ------------------------------------------------------------------ -/

/-- Lookup in a map-updated list where the key differs from the updated one
is unchanged. -/
theorem dictGet_map_replace_ne {κ α : Type} [DecidableEq κ]
    (d : List (κ × α)) (k' k : κ) (v' : α) (hne : k ≠ k') :
    dictGet (d.map (fun p => if p.1 = k' then (k', v') else p)) k
      = dictGet d k := by
  induction d with
  | nil => rfl
  | cons p ps ih =>
    by_cases hp : p.1 = k'
    · simp only [List.map_cons, if_pos hp, dictGet]
      rw [if_neg (show ¬ k' = k from fun h => hne h.symm),
        if_neg (show ¬ p.1 = k by rw [hp]; exact fun h => hne h.symm), ih]
    · simp only [List.map_cons, if_neg hp, dictGet]
      by_cases hk : p.1 = k
      · simp [hk]
      · rw [if_neg hk, if_neg hk, ih]

/-- Lookup after appending a fresh pair falls through absent keys. -/
theorem dictGet_append_single {κ α : Type} [DecidableEq κ]
    (d : List (κ × α)) (k' k : κ) (v' : α) :
    dictGet (d ++ [(k', v')]) k
      = (dictGet d k).orElse (fun _ => if k' = k then some v' else none) := by
  induction d with
  | nil => simp [dictGet]
  | cons p ps ih =>
    by_cases hk : p.1 = k
    · simp [dictGet, hk]
    · simp only [List.cons_append, dictGet, if_neg hk]
      exact ih

/-- Lookup of the updated key in the map branch of `dictInsert` finds the
new value, provided the key occurs. -/
theorem dictGet_map_replace_self {κ α : Type} [DecidableEq κ]
    (d : List (κ × α)) (k' : κ) (v' : α)
    (h : d.any (fun p => p.1 = k') = true) :
    dictGet (d.map (fun p => if p.1 = k' then (k', v') else p)) k'
      = some v' := by
  induction d with
  | nil => cases h
  | cons p ps ih =>
    by_cases hp : p.1 = k'
    · simp [dictGet, hp]
    · simp only [List.map_cons, if_neg hp, dictGet, if_neg hp]
      simp only [List.any_cons, Bool.or_eq_true, decide_eq_true_eq] at h
      exact ih (by simpa using h.resolve_left hp)

/-- Characterisation of lookup after a Python-dict style update. -/
theorem dictInsert_dictGet {κ α : Type} [DecidableEq κ]
    (d : List (κ × α)) (k' k : κ) (v' : α) :
    dictGet (dictInsert d k' v') k
      = if k' = k then some v' else dictGet d k := by
  by_cases hany : d.any (fun p => p.1 = k') = true
  · rw [dictInsert, if_pos hany]
    by_cases hk : k' = k
    · subst hk
      rw [if_pos rfl]
      exact dictGet_map_replace_self d k' v' hany
    · rw [if_neg hk]
      exact dictGet_map_replace_ne d k' k v' (fun h => hk h.symm)
  · rw [dictInsert, if_neg hany, dictGet_append_single]
    by_cases hk : k' = k
    · subst hk
      have hnone : dictGet d k' = none := by
        induction d with
        | nil => rfl
        | cons p ps ih =>
          simp only [List.any_cons, Bool.or_eq_true, decide_eq_true_eq,
            not_or] at hany
          simp only [dictGet, if_neg hany.1]
          exact ih (by simpa using hany.2)
      simp [hnone]
    · rw [if_neg hk]
      cases hd : dictGet d k <;> simp [Option.orElse, hk]

/-- A successful lookup means the key occurs among the first components. -/
theorem dictGet_mem_fst {κ α : Type} [DecidableEq κ]
    (d : List (κ × α)) (k : κ) (v : α) (h : dictGet d k = some v) :
    k ∈ d.map Prod.fst := by
  induction d with
  | nil => cases h
  | cons p ps ih =>
    by_cases hp : p.1 = k
    · exact List.mem_cons.mpr (Or.inl hp.symm)
    · rw [dictGet, if_neg hp] at h
      exact List.mem_cons.mpr (Or.inr (ih h))

/-- If every key of the list differs from `k`, lookup of `k` fails. -/
theorem dictGet_eq_none_of_forall_ne {κ α : Type} [DecidableEq κ]
    (d : List (κ × α)) (k : κ) (h : ∀ p ∈ d, p.1 ≠ k) :
    dictGet d k = none := by
  induction d with
  | nil => rfl
  | cons p ps ih =>
    rw [dictGet, if_neg (h p (List.mem_cons_self p ps))]
    exact ih (fun q hq => h q (List.mem_cons_of_mem p hq))

/-- After deleting a key, lookup of that key fails. -/
theorem dictGet_dictDelete_self {κ α : Type} [DecidableEq κ]
    (d : List (κ × α)) (k : κ) :
    dictGet (dictDelete d k) k = none := by
  refine dictGet_eq_none_of_forall_ne _ k (fun p hp => ?_)
  have := List.of_mem_filter hp
  simpa using this

/-- Deleting one key leaves lookups of other keys unchanged. -/
theorem dictGet_dictDelete_other {κ α : Type} [DecidableEq κ]
    (d : List (κ × α)) (k other : κ) (hne : other ≠ k) :
    dictGet (dictDelete d k) other = dictGet d other := by
  induction d with
  | nil => rfl
  | cons p ps ih =>
    by_cases hp : p.1 = k
    · have : dictDelete (p :: ps) k = dictDelete ps k := by
        simp [dictDelete, List.filter_cons, hp]
      rw [this, ih, dictGet,
        if_neg (show ¬ p.1 = other by rw [hp]; exact fun h => hne h.symm)]
    · have : dictDelete (p :: ps) k = p :: dictDelete ps k := by
        simp [dictDelete, List.filter_cons, hp]
      rw [this, dictGet, dictGet]
      by_cases ho : p.1 = other
      · simp [ho]
      · rw [if_neg ho, if_neg ho, ih]

/-- Deleting an absent key changes nothing. -/
theorem dictDelete_eq_self_of_not_mem {κ α : Type} [DecidableEq κ]
    (d : List (κ × α)) (k : κ) (h : k ∉ d.map Prod.fst) :
    dictDelete d k = d := by
  refine List.filter_eq_self.mpr (fun p hp => ?_)
  simp only [Bool.not_eq_true', decide_eq_false_iff_not]
  exact fun hpk => h (hpk ▸ List.mem_map_of_mem Prod.fst hp)

/-- Deleting a present key from a list with pairwise distinct keys
shortens it by exactly one. -/
theorem dictDelete_length {κ α : Type} [DecidableEq κ]
    (d : List (κ × α)) (k : κ) (v : α)
    (hnd : (d.map Prod.fst).Nodup) (h : dictGet d k = some v) :
    (dictDelete d k).length = d.length - 1 := by
  induction d with
  | nil => cases h
  | cons p ps ih =>
    rw [List.map_cons, List.nodup_cons] at hnd
    by_cases hp : p.1 = k
    · have hrest : dictDelete (p :: ps) k = dictDelete ps k := by
        simp [dictDelete, List.filter_cons, hp]
      rw [hrest, dictDelete_eq_self_of_not_mem ps k (hp ▸ hnd.1)]
      simp
    · rw [dictGet, if_neg hp] at h
      have hlen : 1 ≤ ps.length := by
        cases ps with
        | nil => cases h
        | cons q qs => simp
      have hrest : dictDelete (p :: ps) k = p :: dictDelete ps k := by
        simp [dictDelete, List.filter_cons, hp]
      rw [hrest]
      simp only [List.length_cons]
      rw [ih hnd.2 h]
      omega

/-- Appending strings on the left is injective on the right argument. -/
theorem string_append_right_injective (a : String) :
    Function.Injective (fun s => a ++ s) := by
  intro b c h
  have hd : a.data ++ b.data = a.data ++ c.data := by
    have := congrArg String.data h
    simpa [String.data_append] using this
  cases b
  cases c
  exact congrArg String.mk (List.append_cancel_left hd)

/-- The per-column drop statement is injective in the column name. -/
theorem sqlDropColumn_injective (table_sql_name : String) :
    Function.Injective (PostgreSQLAdapter.sqlDropColumn table_sql_name) := by
  intro b c h
  exact string_append_right_injective
    ("ALTER TABLE " ++ table_sql_name ++ " DROP COLUMN ") h

/-- Entries of the schema dict built by `get_current_schema` all come from
fetched rows (over any accumulator). -/
theorem get_current_schema_fold_inv (rows : List PostgreSQLAdapter.IntrospectedRow)
    (acc : List (String × PostgreSQLAdapter.ColumnInfo)) (k : String)
    (v : PostgreSQLAdapter.ColumnInfo)
    (h : dictGet (rows.foldl
        (fun s row => dictInsert s row.column_name
          (PostgreSQLAdapter.rowInfo row)) acc) k = some v) :
    dictGet acc k = some v ∨
      ∃ row ∈ rows, row.column_name = k ∧
        v = PostgreSQLAdapter.rowInfo row := by
  induction rows generalizing acc with
  | nil => exact Or.inl h
  | cons r rs ih =>
    simp only [List.foldl_cons] at h
    rcases ih _ h with h' | h'
    · rw [dictInsert_dictGet] at h'
      by_cases hk : r.column_name = k
      · rw [if_pos hk] at h'
        exact Or.inr ⟨r, List.mem_cons_self r rs, hk,
          (Option.some.inj h').symm⟩
      · rw [if_neg hk] at h'
        exact Or.inl h'
    · obtain ⟨row, hm, hr⟩ := h'
      exact Or.inr ⟨row, List.mem_cons_of_mem r hm, hr⟩

/-- C2: the adapter's `type_map` is total over the logical type
enumeration: each of the nine logical types (text, integer, float,
boolean, binary, decimal, date, datetime, time) has exactly one entry in
`PostgreSQLAdapter.type_map`, so no logical type is missing. -/
theorem type_map_total (lt : LogicalType) :
    PostgreSQLAdapter.type_map.countP (fun p => p.1 = logicalKey lt) = 1 ∧
    (PostgreSQLAdapter.type_map.find?
      (fun p => p.1 = logicalKey lt)).isSome = true := by
  cases lt <;> exact ⟨rfl, rfl⟩

/-- Witness for C2 at the logical type text. -/
theorem type_map_total_witness :
    PostgreSQLAdapter.type_map.countP
      (fun p => p.1 = logicalKey LogicalType.text) = 1 ∧
    (PostgreSQLAdapter.type_map.find?
      (fun p => p.1 = logicalKey LogicalType.text)).isSome = true :=
  type_map_total LogicalType.text

/-- C3: when the introspection query over `information_schema.columns`
yields no rows (in particular when the table does not exist),
`PostgreSQLAdapter.get_current_schema` returns the empty mapping. -/
theorem get_current_schema_empty :
    PostgreSQLAdapter.get_current_schema [] = [] := rfl

/-- C8: every entry of a `PostgreSQLAdapter.get_current_schema` result is
the observed descriptor of a fetched column whose recorded name equals
the key it is stored under, and its notnull field is 1 exactly when the
introspected `is_nullable` value is the string "NO" and 0 otherwise. -/
theorem get_current_schema_wf
    (rows : List PostgreSQLAdapter.IntrospectedRow) (k : String)
    (v : PostgreSQLAdapter.ColumnInfo)
    (h : dictGet (PostgreSQLAdapter.get_current_schema rows) k = some v) :
    v.name = k ∧ ∃ row ∈ rows, row.column_name = k ∧
      v = PostgreSQLAdapter.rowInfo row ∧
      v.notnull = (if row.is_nullable = "NO" then 1 else 0) := by
  rcases get_current_schema_fold_inv rows [] k v h with h' | h'
  · simp [dictGet] at h'
  · obtain ⟨row, hm, hk, hv⟩ := h'
    exact ⟨by rw [hv]; exact hk, row, hm, hk, hv, by rw [hv]; rfl⟩

/-- Witness for C8 at a concrete two-column introspection result. -/
theorem get_current_schema_wf_witness :
    (PostgreSQLAdapter.ColumnInfo.mk "title" "character varying" 0
      none).name = "title" ∧
    ∃ row ∈ [PostgreSQLAdapter.IntrospectedRow.mk "id" "bigint" "NO" none,
        PostgreSQLAdapter.IntrospectedRow.mk "title" "character varying"
          "YES" none],
      row.column_name = "title" ∧
      PostgreSQLAdapter.ColumnInfo.mk "title" "character varying" 0 none
        = PostgreSQLAdapter.rowInfo row ∧
      (PostgreSQLAdapter.ColumnInfo.mk "title" "character varying" 0
        none).notnull = (if row.is_nullable = "NO" then 1 else 0) :=
  get_current_schema_wf
    [PostgreSQLAdapter.IntrospectedRow.mk "id" "bigint" "NO" none,
     PostgreSQLAdapter.IntrospectedRow.mk "title" "character varying"
       "YES" none]
    "title"
    (PostgreSQLAdapter.ColumnInfo.mk "title" "character varying" 0 none)
    (by decide)

/-- C4: `PostgreSQLAdapter._drop_columns` returns one
`ALTER TABLE <table> DROP COLUMN <column>` statement per column of the
set (exactly one occurrence each, total length the cardinality of the
set, and nothing else), and `supports_drop_column` is true, so
drop_columns is callable on this adapter. -/
theorem drop_columns_spec (table_sql_name : String)
    (columns : List String) (hnd : columns.Nodup) :
    PostgreSQLAdapter.supports_drop_column = true ∧
    (PostgreSQLAdapter._drop_columns table_sql_name columns).length
      = columns.length ∧
    (∀ c ∈ columns,
      List.count (PostgreSQLAdapter.sqlDropColumn table_sql_name c)
        (PostgreSQLAdapter._drop_columns table_sql_name columns) = 1) ∧
    (∀ s ∈ PostgreSQLAdapter._drop_columns table_sql_name columns,
      ∃ c ∈ columns,
        s = PostgreSQLAdapter.sqlDropColumn table_sql_name c) := by
  refine ⟨rfl, by simp [PostgreSQLAdapter._drop_columns], ?_, ?_⟩
  · intro c hc
    rw [PostgreSQLAdapter._drop_columns,
      List.count_map_of_injective columns _
        (sqlDropColumn_injective table_sql_name) c]
    exact List.count_eq_one_of_mem hnd hc
  · intro s hs
    obtain ⟨c, hc, rfl⟩ := List.mem_map.mp hs
    exact ⟨c, hc, rfl⟩

/-- Witness for C4 at a concrete table and two-column set. -/
theorem drop_columns_spec_witness :
    PostgreSQLAdapter.supports_drop_column = true ∧
    (PostgreSQLAdapter._drop_columns "book" ["genre", "extra"]).length
      = (["genre", "extra"] : List String).length ∧
    (∀ c ∈ (["genre", "extra"] : List String),
      List.count (PostgreSQLAdapter.sqlDropColumn "book" c)
        (PostgreSQLAdapter._drop_columns "book" ["genre", "extra"]) = 1) ∧
    (∀ s ∈ PostgreSQLAdapter._drop_columns "book" ["genre", "extra"],
      ∃ c ∈ (["genre", "extra"] : List String),
        s = PostgreSQLAdapter.sqlDropColumn "book" c) :=
  drop_columns_spec "book" ["genre", "extra"] (by decide)

/-- C5: the Trigger Stack is a two-state machine per (table, operation,
key) triple: `push` on an inactive triple activates it and returns
success; `push` on an already-active triple is a no-op returning
"already active"; and after any `push`, `pop` of the triple leaves it
inactive, as does `pop` on any stack. -/
theorem trigger_stack_two_state (s : TriggerStack) (t : TriggerKey) :
    TriggerStack.push s t
      = (if t ∈ s then PushResult.alreadyActive else PushResult.success,
         if t ∈ s then s else t :: s) ∧
    t ∈ (TriggerStack.push s t).2 ∧
    t ∉ TriggerStack.pop (TriggerStack.push s t).2 t ∧
    t ∉ TriggerStack.pop s t := by
  refine ⟨?_, ?_, ?_, ?_⟩
  · rw [TriggerStack.push]
    by_cases h : t ∈ s <;> simp [h]
  · rw [TriggerStack.push]
    by_cases h : t ∈ s <;> simp [h]
  · intro hmem
    have := List.of_mem_filter hmem
    simp at this
  · intro hmem
    have := List.of_mem_filter hmem
    simp at this

/-- Witness for C5 at a concrete (table, operation, key) triple: push on
the empty stack succeeds, a second push is a suppressed no-op, and pop
deactivates the triple. -/
theorem trigger_stack_two_state_witness :
    TriggerStack.push ([] : TriggerStack) (TriggerKey.mk "book" "update" 1)
      = (PushResult.success, [TriggerKey.mk "book" "update" 1]) ∧
    TriggerStack.push [TriggerKey.mk "book" "update" 1]
        (TriggerKey.mk "book" "update" 1)
      = (PushResult.alreadyActive, [TriggerKey.mk "book" "update" 1]) ∧
    TriggerKey.mk "book" "update" 1 ∉
      TriggerStack.pop [TriggerKey.mk "book" "update" 1]
        (TriggerKey.mk "book" "update" 1) := by
  refine ⟨?_, ?_, ?_⟩
  · have h :=
      (trigger_stack_two_state [] (TriggerKey.mk "book" "update" 1)).1
    simpa using h
  · have h := (trigger_stack_two_state [TriggerKey.mk "book" "update" 1]
      (TriggerKey.mk "book" "update" 1)).1
    simpa using h
  · exact (trigger_stack_two_state [TriggerKey.mk "book" "update" 1]
      (TriggerKey.mk "book" "update" 1)).2.2.2

/-- C9: after `DbConfig.add(name, connection_string)`, `DbConfig.get(name)`
returns the mapping with that connection string, and entries for every
other name are unchanged by the add. -/
theorem dbconfig_add_get_round_trip (file : Option Register)
    (name connection_string other : String) (hother : other ≠ name) :
    DbConfig.get (DbConfig.add file name connection_string) name
      = some ⟨connection_string⟩ ∧
    DbConfig.get (DbConfig.add file name connection_string) other
      = DbConfig.get file other := by
  constructor
  · rw [show DbConfig.get (DbConfig.add file name connection_string) name
        = dictGet (dictInsert (DbConfig.load_register file) name
            ⟨connection_string⟩) name from rfl,
      dictInsert_dictGet, if_pos rfl]
  · rw [show DbConfig.get (DbConfig.add file name connection_string) other
        = dictGet (dictInsert (DbConfig.load_register file) name
            ⟨connection_string⟩) other from rfl,
      dictInsert_dictGet, if_neg (fun h => hother h.symm)]
    rfl

/-- Witness for C9 at a concrete register file. -/
theorem dbconfig_add_get_round_trip_witness :
    DbConfig.get (DbConfig.add (some [("db1", DbEntry.mk "sqlite1")])
      "db2" "pg2") "db2" = some ⟨"pg2"⟩ ∧
    DbConfig.get (DbConfig.add (some [("db1", DbEntry.mk "sqlite1")])
      "db2" "pg2") "db1"
      = DbConfig.get (some [("db1", DbEntry.mk "sqlite1")]) "db1" :=
  dbconfig_add_get_round_trip (some [("db1", DbEntry.mk "sqlite1")])
    "db2" "pg2" "db1" (by decide)

/-- C10: `DbConfig.remove(name)` returns true exactly when the name is
registered; afterwards the stored register has no entry for the name
while every other entry is unchanged; and when it returns false the
stored register file is unchanged. -/
theorem dbconfig_remove_spec (file : Option Register) (name : String) :
    ((DbConfig.remove file name).1 = true ↔
      (DbConfig.load_register file).any (fun p => p.1 = name) = true) ∧
    DbConfig.get (DbConfig.remove file name).2 name = none ∧
    (∀ other, other ≠ name →
      DbConfig.get (DbConfig.remove file name).2 other
        = DbConfig.get file other) ∧
    ((DbConfig.remove file name).1 = false →
      (DbConfig.remove file name).2 = file) := by
  by_cases h : (DbConfig.load_register file).any (fun p => p.1 = name)
      = true
  · have hr : DbConfig.remove file name
        = (true, DbConfig.save_register
            (dictDelete (DbConfig.load_register file) name)) := by
      rw [DbConfig.remove, if_pos h]
    refine ⟨by rw [hr]; simpa using h, ?_, ?_, ?_⟩
    · rw [hr]
      exact dictGet_dictDelete_self _ name
    · intro other ho
      rw [hr]
      show dictGet (dictDelete (DbConfig.load_register file) name) other
        = DbConfig.get file other
      rw [dictGet_dictDelete_other _ name other ho]
      rfl
    · intro hfalse
      rw [hr] at hfalse
      simp at hfalse
  · have hr : DbConfig.remove file name = (false, file) := by
      rw [DbConfig.remove, if_neg h]
    have hnone : dictGet (DbConfig.load_register file) name = none := by
      refine dictGet_eq_none_of_forall_ne _ name (fun p hp hpk => ?_)
      exact h (List.any_eq_true.mpr ⟨p, hp, by simpa using hpk⟩)
    refine ⟨by rw [hr]; simpa using h, ?_, ?_, ?_⟩
    · rw [hr]
      exact hnone
    · intro other ho
      rw [hr]
    · intro _
      rw [hr]

/-- Witness for C10: a present name is removed (other entries intact) and
a missing name leaves the stored file untouched. -/
theorem dbconfig_remove_spec_witness :
    DbConfig.get (DbConfig.remove
      (some [("db1", DbEntry.mk "c1"), ("db2", DbEntry.mk "c2")])
      "db1").2 "db1" = none ∧
    DbConfig.get (DbConfig.remove
      (some [("db1", DbEntry.mk "c1"), ("db2", DbEntry.mk "c2")])
      "db1").2 "db2"
      = DbConfig.get
          (some [("db1", DbEntry.mk "c1"), ("db2", DbEntry.mk "c2")])
          "db2" ∧
    (DbConfig.remove (some [("db1", DbEntry.mk "c1")]) "missing").1
      = false ∧
    (DbConfig.remove (some [("db1", DbEntry.mk "c1")]) "missing").2
      = some [("db1", DbEntry.mk "c1")] :=
  ⟨(dbconfig_remove_spec
      (some [("db1", DbEntry.mk "c1"), ("db2", DbEntry.mk "c2")])
      "db1").2.1,
   (dbconfig_remove_spec
      (some [("db1", DbEntry.mk "c1"), ("db2", DbEntry.mk "c2")])
      "db1").2.2.1 "db2" (by decide),
   by decide,
   (dbconfig_remove_spec (some [("db1", DbEntry.mk "c1")])
      "missing").2.2.2 (by decide)⟩

/-- Lookup by key in a list mapped to (key, value) pairs finds the value
of the given element, when the keys are pairwise distinct. -/
theorem dictGet_map_key {κ α β : Type} [DecidableEq κ] (l : List α)
    (key : α → κ) (f : α → β) (hnd : (l.map key).Nodup) (c : α)
    (hc : c ∈ l) :
    dictGet (l.map (fun a => (key a, f a))) (key c) = some (f c) := by
  induction l with
  | nil => cases hc
  | cons a as ih =>
    rw [List.map_cons, List.nodup_cons] at hnd
    simp only [List.map_cons, dictGet]
    by_cases h : key a = key c
    · rw [if_pos h]
      rcases List.mem_cons.mp hc with rfl | hmem
      · rfl
      · exact absurd (h.symm ▸ List.mem_map_of_mem key hmem) hnd.1
    · rw [if_neg h]
      rcases List.mem_cons.mp hc with rfl | hmem
      · exact absurd rfl h
      · exact ih hnd.2 hmem

/-- C1: for a table whose live schema already matches the Schema Model,
the Schema Synchronizer computes empty to-add, to-drop and to-alter sets
and executes zero statements — so, the live schema being left untouched,
a second run in a row executes no statements either. -/
theorem sync_idempotent (table_sql_name : String)
    (model : List ModelColumn)
    (live : List (String × PostgreSQLAdapter.ColumnInfo))
    (h : liveMatches model live = true) :
    (syncTable table_sql_name model true live).to_add = [] ∧
    (syncTable table_sql_name model true live).to_drop = [] ∧
    (syncTable table_sql_name model true live).to_alter = [] ∧
    (syncTable table_sql_name model true live).statements = [] := by
  simp only [liveMatches, Bool.and_eq_true, List.all_eq_true,
    List.any_eq_true, decide_eq_true_eq] at h
  obtain ⟨hm, hl⟩ := h
  have hadd : toAdd model live = [] := by
    unfold toAdd
    refine List.filter_eq_nil_iff.mpr ?_
    intro n hn
    obtain ⟨c, hc, rfl⟩ := List.mem_map.mp hn
    have hmem : c.name ∈ live.map Prod.fst :=
      dictGet_mem_fst live c.name _ (hm c hc)
    have hany : (live.map Prod.fst).any (fun m => m = c.name) = true :=
      List.any_eq_true.mpr ⟨c.name, hmem, by simp⟩
    simp [hany]
  have hdrop : toDrop model live = [] := by
    unfold toDrop
    refine List.filter_eq_nil_iff.mpr ?_
    intro n hn
    obtain ⟨p, hp, rfl⟩ := List.mem_map.mp hn
    obtain ⟨c, hc, hcn⟩ := hl p hp
    have hmem : p.1 ∈ model.map (fun c => c.name) :=
      List.mem_map.mpr ⟨c, hc, hcn⟩
    have hany : (model.map (fun c => c.name)).any (fun m => m = p.1)
        = true :=
      List.any_eq_true.mpr ⟨p.1, hmem, by simp⟩
    simp [hany]
  have halter : toAlter model live = [] := by
    unfold toAlter
    refine List.filter_eq_nil_iff.mpr ?_
    intro n hn
    obtain ⟨c, hc, rfl⟩ := List.mem_map.mp hn
    have hsome : (model.find? (fun c' => c'.name = c.name)).isSome
        = true :=
      List.find?_isSome.mpr ⟨c, hc, by simp⟩
    obtain ⟨mc, hmc⟩ := Option.isSome_iff_exists.mp hsome
    have hmcn : mc.name = c.name := by simpa using List.find?_some hmc
    have hmcm : mc ∈ model := List.mem_of_find?_eq_some hmc
    have hlive : dictGet live c.name = some (renderColumn mc) := by
      rw [← hmcn]
      exact hm mc hmcm
    simp [alterNeeded, hlive, hmc, renderColumn]
  refine ⟨?_, ?_, ?_, ?_⟩ <;>
    simp [syncTable, hadd, hdrop, halter]

/-- Witness for C1 at the book table, whose live schema matches its
Schema Model. -/
theorem sync_idempotent_witness :
    liveMatches bookSchema bookLive = true ∧
    ((syncTable "book" bookSchema true bookLive).to_add = [] ∧
     (syncTable "book" bookSchema true bookLive).to_drop = [] ∧
     (syncTable "book" bookSchema true bookLive).to_alter = [] ∧
     (syncTable "book" bookSchema true bookLive).statements = []) :=
  ⟨by decide, sync_idempotent "book" bookSchema bookLive (by decide)⟩

/-- C6: inserting a valid record and reading it back with the returned key
yields the stored row, which agrees with the inserted record on every
declared column the record supplies. -/
theorem insert_get_round_trip (st : TableState) (record : Record)
    (hval : Table.validRecord st.schema record = true)
    (hfresh : dictGet st.rows (Table.insertKey st record) = none)
    (hnd : (st.schema.map ModelColumn.name).Nodup) :
    ∃ st', Table.insert st record
        = Except.ok (Table.insertKey st record, st') ∧
      Table.get st' (Table.insertKey st record)
        = Except.ok (Table.storedRow st record) ∧
      ∀ c ∈ st.schema, ∀ v, dictGet record c.name = some v →
        dictGet (Table.storedRow st record) c.name = some v := by
  refine ⟨{ st with
      rows := st.rows ++
        [(Table.insertKey st record, Table.storedRow st record)]
      next_key := st.next_key + 1 }, ?_, ?_, ?_⟩
  · unfold Table.insert
    rw [if_pos hval]
  · have hget : Table.get { st with
        rows := st.rows ++
          [(Table.insertKey st record, Table.storedRow st record)]
        next_key := st.next_key + 1 } (Table.insertKey st record)
        = match dictGet (st.rows ++
            [(Table.insertKey st record, Table.storedRow st record)])
            (Table.insertKey st record) with
          | some r => Except.ok r
          | none => Except.error DbError.NotFound := rfl
    rw [hget, dictGet_append_single, hfresh]
    simp [Option.orElse]
  · intro c hc v hv
    have hlook := dictGet_map_key st.schema ModelColumn.name
      (fun c => if c.name = st.pkey then Table.insertKey st record
        else (dictGet record c.name).getD Value.vNull) hnd c hc
    have hsr : dictGet (Table.storedRow st record) c.name
        = some (if c.name = st.pkey then Table.insertKey st record
            else (dictGet record c.name).getD Value.vNull) := hlook
    rw [hsr]
    by_cases hp : c.name = st.pkey
    · rw [if_pos hp]
      have hkey : Table.insertKey st record = v := by
        have h0 : Table.insertKey st record
            = (dictGet record st.pkey).getD (Value.vInt st.next_key) :=
          rfl
        rw [h0, ← hp, hv]
        rfl
      rw [hkey]
    · rw [if_neg hp, hv]
      rfl

/-- Witness for C6: inserting `{title: "Dune", pages: 412}` into the empty
book table and reading it back. -/
theorem insert_get_round_trip_witness :
    Table.validRecord bookTable.schema duneRecord = true ∧
    (∃ st', Table.insert bookTable duneRecord
        = Except.ok (Table.insertKey bookTable duneRecord, st') ∧
      Table.get st' (Table.insertKey bookTable duneRecord)
        = Except.ok (Table.storedRow bookTable duneRecord) ∧
      ∀ c ∈ bookTable.schema, ∀ v, dictGet duneRecord c.name = some v →
        dictGet (Table.storedRow bookTable duneRecord) c.name
          = some v) :=
  ⟨by decide, insert_get_round_trip bookTable duneRecord (by decide)
    (by decide) (by decide)⟩

/-- C7: after deleting a present key, `get` of that key fails with
NotFound, no remaining row carries the key, and the sequence returned by
`list()` is exactly one shorter. -/
theorem delete_finality (st : TableState) (key : Value) (r : Record)
    (hmem : dictGet st.rows key = some r)
    (hnd : (st.rows.map Prod.fst).Nodup) :
    ∃ st', Table.delete st key = Except.ok st' ∧
      Table.get st' key = Except.error DbError.NotFound ∧
      (∀ p ∈ st'.rows, p.1 ≠ key) ∧
      (Table.list st').length = (Table.list st).length - 1 := by
  refine ⟨{ st with rows := dictDelete st.rows key }, ?_, ?_, ?_, ?_⟩
  · unfold Table.delete
    rw [hmem]
  · have hget : Table.get { st with rows := dictDelete st.rows key } key
        = match dictGet (dictDelete st.rows key) key with
          | some r => Except.ok r
          | none => Except.error DbError.NotFound := rfl
    rw [hget, dictGet_dictDelete_self]
  · intro p hp
    have hmemf : p ∈ st.rows.filter (fun q => ! decide (q.1 = key)) := hp
    have := List.of_mem_filter hmemf
    simpa using this
  · show (List.map Prod.snd (dictDelete st.rows key)).length
      = (List.map Prod.snd st.rows).length - 1
    simp only [List.length_map]
    exact dictDelete_length st.rows key r hnd hmem

/-- Witness for C7: deleting the one row of the populated book table. -/
theorem delete_finality_witness :
    dictGet bookTableOneRow.rows (Value.vInt 1)
      = some [("id", Value.vInt 1), ("title", Value.vStr "Dune"),
          ("pages", Value.vInt 412)] ∧
    (∃ st', Table.delete bookTableOneRow (Value.vInt 1)
        = Except.ok st' ∧
      Table.get st' (Value.vInt 1) = Except.error DbError.NotFound ∧
      (∀ p ∈ st'.rows, p.1 ≠ Value.vInt 1) ∧
      (Table.list st').length
        = (Table.list bookTableOneRow).length - 1) :=
  ⟨by decide, delete_finality bookTableOneRow (Value.vInt 1)
    [("id", Value.vInt 1), ("title", Value.vStr "Dune"),
      ("pages", Value.vInt 412)] (by decide) (by decide)⟩

end GenroDb
